import Mathlib

/-
Verification of the TaskChain chain build-and-execute engine against its
natural-language specification.  The repository ships only documentation,
configuration and notebooks; the Python implementation itself is not part of
the source snapshot, so every definition below is modelled from the
specification (spec.md) and the repository documentation, as indicated in
each doc comment.
-/

set_option autoImplicit false

namespace TaskChain

/-- Modelled from the spec: a JSON-like scalar configuration/parameter value
(`canonical-repr(value)` for scalars is the obvious textual form, §4.5).
Missing code: the parameter value representation of the Python package. -/
inductive PValue where
  | null
  | bool (b : Bool)
  | int (n : Int)
  | str (s : String)
deriving Repr, DecidableEq

/-- Modelled from the spec: canonical textual representation of a scalar
value used inside a fingerprint (§4.5).  A constructor tag keeps distinct
scalars distinct. -/
def canonicalRepr : PValue → String
  | .null => "null"
  | .bool b => "b:" ++ toString b
  | .int n => "i:" ++ toString n
  | .str s => "s:" ++ s

/-- Modelled from the spec: a declared task parameter with its persistence
flags (§3 Parameter, §4.5; docs part_004 "Parameter's parameters").
`default = none` models the NO_DEFAULT sentinel, i.e. the parameter is
required.  Missing code: the `Parameter` class of the Python package. -/
structure Param where
  name : String
  default : Option PValue := none
  name_in_config : String := name
  ignore_persistence : Bool := false
  dont_persist_default_value : Bool := false
deriving Repr, DecidableEq

/-- A config is a flat mapping of parameter names to values, modelled as an
association list (first binding wins). -/
def Config := List (String × PValue)

/-- Lookup of a key in a config. -/
def configLookup (cfg : Config) (key : String) : Option PValue :=
  match cfg with
  | [] => none
  | (k, v) :: rest => if k = key then some v else configLookup rest key

/-- Modelled from the spec: parameter binding (§4.3) — the config is searched
for `name_in_config`; if the key is absent the default sentinel is used; a
required parameter that is nowhere bound fails (`none`). -/
def boundValue (cfg : Config) (p : Param) : Option PValue :=
  match configLookup cfg p.name_in_config with
  | some v => some v
  | none => p.default

/-- Modelled from the spec: the ordered persistence-relevant parameter
entries of a fingerprint (§4.5): for each declared parameter, in declared
order, excluding those with `ignore_persistence` and those whose value
equals the default when `dont_persist_default_value` is set, the pair
`(name, canonical-repr(value))`.  `none` signals a binding failure of a
persistence-relevant parameter. -/
def persistedEntries (cfg : Config) : List Param → Option (List (String × String))
  | [] => some []
  | p :: rest =>
    if p.ignore_persistence then persistedEntries cfg rest
    else
      match boundValue cfg p with
      | none => none
      | some v =>
        if p.dont_persist_default_value ∧ p.default = some v then
          persistedEntries cfg rest
        else
          (persistedEntries cfg rest).map (fun es => (p.name, canonicalRepr v) :: es)

/-- Concatenation of strings with a separator, kernel-computable. -/
def joinSep (sep : String) : List String → String
  | [] => ""
  | [x] => x
  | x :: rest => x ++ sep ++ joinSep sep rest

/-- Modelled from the spec: the digest of the ordered fingerprint sequence
(§4.5).  The 128-bit hash itself is external; it is modelled by the injective
canonical concatenation of its pre-image, which is a pure function of
(class identity, persistence-relevant entries, input fingerprints). -/
def mkFp (className : String) (entries : List (String × String))
    (inputFps : List String) : String :=
  className ++ "|" ++
    joinSep ";" (entries.map (fun e => e.1 ++ "=" ++ e.2)) ++ "|" ++
    joinSep ";" inputFps

/-- Modelled from the spec: the extension of a persisted artifact is
determined by the declared return type of the task (§4.6, §6; docs
part_004 "Data class"). -/
inductive RType where
  | jsonLike
  | numpyArray
  | pandasFrame
  | figure
  | generated
deriving Repr, DecidableEq

/-- Modelled from the spec: extension table of the data-handler layer
(§4.6): JSON-compatible values → `.json`, numeric arrays → `.npy`,
tabular frames → `.pd`, figures → pickle (`.pickle` with `.png`/`.svg`
sidecars), generated sequences → `.jsonl`. -/
def extOf : RType → String
  | .jsonLike => "json"
  | .numpyArray => "npy"
  | .pandasFrame => "pd"
  | .figure => "pickle"
  | .generated => "jsonl"

/-- Modelled from the spec: the statically declared part of a task class
(§3 TaskClass; docs part_004 `Meta`): dotted class path, optional explicit
name, group, declared parameters, declared input-task references (as chain
indices), declared return type and the run-method. -/
structure TaskSpec where
  className : String
  name : Option String := none
  group : String := ""
  params : List Param := []
  inputRefs : List Nat := []
  returnType : RType := .jsonLike
  run : List Nat → Nat := fun _ => 0

/-- Modelled from the spec: the fingerprint of one task instance as a
function of its class identity, its persistence-relevant parameter values
and the fingerprints of its input tasks (§4.5). -/
def taskFingerprint (ts : TaskSpec) (cfg : Config) (inputFps : List String) :
    Option String :=
  (persistedEntries cfg ts.params).map (fun es => mkFp ts.className es inputFps)

/-- Fingerprints of the input tasks of one task, read from the accumulator
of already computed fingerprints. -/
def inputFpsOf (acc : List (Option String)) (refs : List Nat) :
    Option (List String) :=
  refs.mapM (fun j => (acc.get? j).bind id)

/-- One chain-building step: the fingerprint of the next task, given the
fingerprints of all earlier tasks. -/
def fpStep (cfg : Config) (acc : List (Option String)) (ts : TaskSpec) :
    Option String :=
  match inputFpsOf acc ts.inputRefs with
  | some fps => taskFingerprint ts cfg fps
  | none => none

/-- Left-to-right fingerprint computation over the task list of a chain. -/
def buildFpsAux (cfg : Config) (acc : List (Option String)) :
    List TaskSpec → List (Option String)
  | [] => acc
  | ts :: rest => buildFpsAux cfg (acc ++ [fpStep cfg acc ts]) rest

/-- Modelled from the spec: the fingerprints of all task instances of a
chain, computed in dependency (index) order (§4.5 with §2 item 5). -/
def buildFps (cfg : Config) (tasks : List TaskSpec) : List (Option String) :=
  buildFpsAux cfg [] tasks

/-- Helper of `camelToSnake`: every upper-case character after the first
position is replaced by an underscore followed by its lower-case form. -/
def snakeAux : List Char → List Char
  | [] => []
  | c :: rest => (if c.isUpper then ['_', c.toLower] else [c]) ++ snakeAux rest

/-- Modelled from the spec: camel-case to snake-case conversion used for
derived task names (§4.2 Name derivation; docs part_004 "Task names and
groups"). -/
def camelToSnake (s : String) : String :=
  match s.toList with
  | [] => ""
  | c :: rest => String.mk (c.toLower :: snakeAux rest)

/-- Modelled from the spec: a trailing `Task` suffix of a class name is
stripped before the snake-case conversion (§4.2 Name derivation). -/
def stripTaskSuffix (s : String) : String :=
  let cs := s.toList
  if cs.reverse.take 4 = ['k', 's', 'a', 'T'] then
    String.mk (cs.take (cs.length - 4))
  else s

/-- Modelled from the spec: the task name derived from a class name when the
`Meta` class declares no explicit `name` attribute (§4.2; docs part_004). -/
def deriveName (className : String) : String :=
  camelToSnake (stripTaskSuffix className)

/-- Modelled from the spec: the effective name of a task — the explicit
`Meta.name` when present, else the name derived from the class name. -/
def taskName (ts : TaskSpec) : String :=
  match ts.name with
  | some n => n
  | none => deriveName ts.className

/-- Splitting of a multi-level group (`group:subgroup`) at the colons. -/
def splitColon : List Char → List (List Char)
  | [] => [[]]
  | c :: rest =>
    let r := splitColon rest
    if c = ':' then [] :: r
    else
      match r with
      | [] => [[c]]
      | g :: gs => (c :: g) :: gs

/-- Modelled from the spec: the directory path fragment of a (possibly
multi-level) group — `group:subgroup` becomes `group/subgroup` (docs
part_002 "Saved files"). -/
def groupPath (g : String) : String :=
  joinSep "/" ((splitColon g.toList).map String.mk)

/-- Modelled from the spec: the extension-free base of all persisted file
names of one task: `<root>/<group-path>/<task-name>/<fingerprint>`; an empty
group collapses its path segment (§6 Artifact layout; docs part_002
"Saved files"). -/
def artifactBase (root group name fp : String) : String :=
  if group = "" then root ++ "/" ++ name ++ "/" ++ fp
  else root ++ "/" ++ groupPath group ++ "/" ++ name ++ "/" ++ fp

/-- Modelled from the spec: the data file path
`<root>/<group-path>/<task-name>/<fingerprint>.<ext>` (§6; docs part_002). -/
def dataPath (root group name fp ext : String) : String :=
  artifactBase root group name fp ++ "." ++ ext

/-- Modelled from the spec: the run-info sidecar path, a sibling of the data
file with suffix `.run_info.yaml` in place of the data extension (§3
PersistedArtifact; docs part_002 "Log files"). -/
def runInfoPath (root group name fp : String) : String :=
  artifactBase root group name fp ++ ".run_info.yaml"

/-- Modelled from the spec: the log file path, a sibling of the data file
with suffix `.log` in place of the data extension (§3 PersistedArtifact). -/
def logPath (root group name fp : String) : String :=
  artifactBase root group name fp ++ ".log"

/-- Modelled from the spec: the reserved config parameter names that may not
be used as user parameters (§3 Reserved parameter names).  The documentation
snapshot (part_004 "Reserved config parameter names") predates 1.2.0 and
omits `excluded_tasks`; the spec includes it. -/
def reservedNames : List String :=
  ["tasks", "uses", "excluded_tasks", "configs", "for_namespaces",
    "human_readable_data_name"]

/-- A task declaring a parameter whose name is reserved. -/
def hasReservedParam (tasks : List TaskSpec) : Bool :=
  tasks.any (fun ts => ts.params.any (fun p => reservedNames.contains p.name))

/-- Modelled from the spec: a resolved task instance as seen by the
execution engine — its run-method, its input-task references and the
persisted-artifact path derived from its fingerprint (§4.7). -/
structure ETask where
  run : List Nat → Nat
  inputRefs : List Nat
  path : String

/-- A task spec together with its fingerprint, resolved for execution. -/
def mkETask (root : String) (ts : TaskSpec) (fp : String) : ETask :=
  { run := ts.run
    inputRefs := ts.inputRefs
    path := dataPath root ts.group (taskName ts) fp (extOf ts.returnType) }

/-- Modelled from the spec: chain construction (§2, §4.2, §4.3, §7).
Construction fails (`none`) when a task declares a parameter with a reserved
name, when a required parameter is bound nowhere, or when an input-task
reference does not resolve; otherwise every task is paired with its
fingerprint-derived artifact path. -/
def buildChain (root : String) (cfg : Config) (tasks : List TaskSpec) :
    Option (List ETask) :=
  if hasReservedParam tasks then none
  else if tasks.all (fun ts => ts.params.all (fun p => (boundValue cfg p).isSome)) then
    (List.zip tasks (buildFps cfg tasks)).mapM (fun tf =>
      match tf.2 with
      | some fp => some (mkETask root tf.1 fp)
      | none => none)
  else none

/-- Modelled from the spec: a persisted artifact on disk with its completion
flag (§4.6 `exists`/`is_finished`; §5 partial files are treated as absent). -/
structure Artifact where
  value : Nat
  finished : Bool
deriving Repr, DecidableEq

/-- Modelled from the spec: the per-process state seen by the execution
engine (§4.7, §5): the in-memory value cache, the shared artifact store on
disk, the chain-local forced marks, and the ordered trace of run-method
invocations. -/
structure EngineState where
  memory : List (Nat × Nat)
  disk : List (String × Artifact)
  forced : List Nat
  runTrace : List Nat
deriving Repr, DecidableEq

/-- Lookup of the in-memory cached value of a task. -/
def lookupMem : List (Nat × Nat) → Nat → Option Nat
  | [], _ => none
  | (k, v) :: rest, i => if k = i then some v else lookupMem rest i

/-- Lookup of an artifact on disk by path. -/
def lookupDisk : List (String × Artifact) → String → Option Artifact
  | [], _ => none
  | (p, a) :: rest, q => if p = q then some a else lookupDisk rest q

/-- Writing an artifact overwrites an existing entry at the same path and
never removes any other entry. -/
def setDisk : List (String × Artifact) → String → Artifact → List (String × Artifact)
  | [], q, a => [(q, a)]
  | (p, b) :: rest, q, a =>
    if p = q then (p, a) :: rest else (p, b) :: setDisk rest q a

/-- Modelled from the spec: the artifact the engine may load for task `i`
(§4.7 step 2a): available only when the force mark of `i` is clear and the
handler reports the artifact exists and is finished. -/
def availArtifact (st : EngineState) (t : ETask) (i : Nat) : Option Nat :=
  if st.forced.contains i then none
  else
    match lookupDisk st.disk t.path with
    | some a => if a.finished then some a.value else none
    | none => none

/-- Sequential evaluation of a list of input tasks with a given single-task
evaluator, propagating the evolving engine state (§4.7 step 2b). -/
def evalList (step : EngineState → Nat → EngineState × Option Nat) :
    EngineState → List Nat → EngineState × Option (List Nat)
  | st, [] => (st, some [])
  | st, j :: rest =>
    match step st j with
    | (st2, none) => (st2, none)
    | (st2, some v) =>
      match evalList step st2 rest with
      | (st3, none) => (st3, none)
      | (st3, some vs) => (st3, some (v :: vs))

/-- Modelled from the spec: the demand-driven evaluation of one task's value
(§4.7): return the cached in-memory value if present; otherwise load the
finished artifact when the force mark is clear; otherwise evaluate every
input task, invoke the run-method, persist the result and cache it.  `fuel`
bounds the recursion depth; any fuel at least the chain length suffices on
an acyclic chain. -/
def evalTask (ch : List ETask) : Nat → EngineState → Nat → EngineState × Option Nat
  | 0, st, _ => (st, none)
  | fuel + 1, st, i =>
    match ch.get? i with
    | none => (st, none)
    | some t =>
      match lookupMem st.memory i with
      | some v => (st, some v)
      | none =>
        match availArtifact st t i with
        | some v => ({ st with memory := (i, v) :: st.memory }, some v)
        | none =>
          match evalList (fun st' j => evalTask ch fuel st' j) st t.inputRefs with
          | (st2, none) => (st2, none)
          | (st2, some vs) =>
            ({ st2 with
                memory := (i, t.run vs) :: st2.memory
                disk := setDisk st2.disk t.path { value := t.run vs, finished := true }
                runTrace := st2.runTrace ++ [i] },
              some (t.run vs))

/-- One step of the downstream closure: add every task one of whose inputs
is already in the set. -/
def dependStep (ch : List ETask) (s : List Nat) : List Nat :=
  s ++ (List.range ch.length).filter (fun j =>
    !s.contains j &&
      (match ch.get? j with
        | some t => t.inputRefs.any s.contains
        | none => false))

/-- Iterated downstream closure. -/
def dependClosure (ch : List ETask) : Nat → List Nat → List Nat
  | 0, s => s
  | n + 1, s => dependClosure ch n (dependStep ch s)

/-- Modelled from the spec: `Chain.force(names)` marks the named tasks and
all their downstream dependants as forced (§4.7 Forcing; docs part_002
"Recomputing data").  Without `delete_data` no artifact is removed. -/
def chainForce (ch : List ETask) (ids : List Nat) (st : EngineState) : EngineState :=
  { st with forced := dependClosure ch ch.length ids }

/-- Modelled from the spec: `Task.force()` marks the task itself as forced
and returns the task (docs part_003 "Forcing": force returns the task
itself so it chains with `.value`). -/
def forceTask (st : EngineState) (i : Nat) : EngineState × Nat :=
  ({ st with forced := i :: st.forced }, i)

/-- Modelled from the spec: the engine state of a freshly constructed chain
— the disk store survives reconstruction, the in-memory cache, the forced
marks and the run trace do not (§4.7: the forced mark is chain-local and
does not survive chain reconstruction). -/
def initState (disk : List (String × Artifact)) : EngineState :=
  { memory := [], disk := disk, forced := [], runTrace := [] }

mutual
/-- Modelled from the spec: a JSON-compatible value — scalars, sequences and
mappings (§4.6 single-artifact handler).  Missing code: the value domain of
the `JSONData` handler. -/
inductive J where
  | null
  | jbool (b : Bool)
  | jint (n : Int)
  | jstr (s : String)
  | jarr (xs : JList)
  | jobj (kvs : JObj)
/-- A sequence of JSON-compatible values. -/
inductive JList where
  | nil
  | cons (hd : J) (tl : JList)
/-- A mapping of string keys to JSON-compatible values. -/
inductive JObj where
  | onil
  | ocons (k : String) (v : J) (tl : JObj)
end

/-- Modelled from the spec: a token of the serialized artifact byte stream.
The concrete data codecs are external collaborators (§1), so file contents
are modelled at token granularity. -/
inductive Tok where
  | tnull
  | tbool (b : Bool)
  | tint (n : Int)
  | tstr (s : String)
  | arrOpen
  | arrClose
  | objOpen
  | objClose
  | key (s : String)
deriving Repr, DecidableEq

mutual
/-- Serialization of a JSON-compatible value to the artifact token stream. -/
def encodeJ : J → List Tok
  | .null => [.tnull]
  | .jbool b => [.tbool b]
  | .jint n => [.tint n]
  | .jstr s => [.tstr s]
  | .jarr xs => .arrOpen :: (encodeJList xs ++ [.arrClose])
  | .jobj kvs => .objOpen :: (encodeJObj kvs ++ [.objClose])
/-- Serialization of a sequence body. -/
def encodeJList : JList → List Tok
  | .nil => []
  | .cons hd tl => encodeJ hd ++ encodeJList tl
/-- Serialization of a mapping body. -/
def encodeJObj : JObj → List Tok
  | .onil => []
  | .ocons k v tl => .key k :: (encodeJ v ++ encodeJObj tl)
end

mutual
/-- Fuel needed by `decodeJ` on the encoding of a value. -/
def sizeJ : J → Nat
  | .null => 1
  | .jbool _ => 1
  | .jint _ => 1
  | .jstr _ => 1
  | .jarr xs => 1 + sizeJList xs
  | .jobj kvs => 1 + sizeJObj kvs
/-- Fuel needed by `decodeJList` on the encoding of a sequence body. -/
def sizeJList : JList → Nat
  | .nil => 1
  | .cons hd tl => 1 + sizeJ hd + sizeJList tl
/-- Fuel needed by `decodeJObj` on the encoding of a mapping body. -/
def sizeJObj : JObj → Nat
  | .onil => 1
  | .ocons _ v tl => 1 + sizeJ v + sizeJObj tl
end

/-- Lookahead of the sequence parser: the closing token of a sequence. -/
def headIsArrClose : List Tok → Bool
  | .arrClose :: _ => true
  | _ => false

/-- Lookahead of the mapping parser: a key token starts another entry. -/
def headIsKey : List Tok → Bool
  | .key _ :: _ => true
  | _ => false

mutual
/-- Deserialization of one JSON-compatible value from a token stream,
returning the value and the unconsumed remainder. -/
def decodeJ : Nat → List Tok → Option (J × List Tok)
  | 0, _ => none
  | fuel + 1, toks =>
    match toks with
    | .tnull :: rest => some (.null, rest)
    | .tbool b :: rest => some (.jbool b, rest)
    | .tint n :: rest => some (.jint n, rest)
    | .tstr s :: rest => some (.jstr s, rest)
    | .arrOpen :: rest =>
      match decodeJList fuel rest with
      | some (xs, .arrClose :: rest2) => some (.jarr xs, rest2)
      | _ => none
    | .objOpen :: rest =>
      match decodeJObj fuel rest with
      | some (kvs, .objClose :: rest2) => some (.jobj kvs, rest2)
      | _ => none
    | _ => none
/-- Deserialization of a sequence body up to its closing token. -/
def decodeJList : Nat → List Tok → Option (JList × List Tok)
  | 0, _ => none
  | fuel + 1, toks =>
    if headIsArrClose toks then some (.nil, toks)
    else
      match decodeJ fuel toks with
      | some (v, rest) =>
        match decodeJList fuel rest with
        | some (xs, rest2) => some (.cons v xs, rest2)
        | none => none
      | none => none
/-- Deserialization of a mapping body up to its closing token. -/
def decodeJObj : Nat → List Tok → Option (JObj × List Tok)
  | 0, _ => none
  | fuel + 1, toks =>
    if headIsKey toks then
      match toks with
      | .key k :: rest =>
        match decodeJ fuel rest with
        | some (v, rest2) =>
          match decodeJObj fuel rest2 with
          | some (kvs, rest3) => some (.ocons k v kvs, rest3)
          | none => none
        | none => none
      | _ => none
    else some (.onil, toks)
end

/-- Modelled from the spec: `JSONData.save` — JSON-compatible values are
persisted as one serialized artifact (§4.6). -/
def saveJSON (v : J) : List Tok := encodeJ v

/-- Modelled from the spec: `JSONData.load` — the whole artifact is parsed
back into a JSON-compatible value (§4.6). -/
def loadJSON (toks : List Tok) : Option J :=
  match decodeJ (2 * toks.length) toks with
  | some (v, []) => some v
  | _ => none

/-- Embedding of a numeric array into a JSON sequence. -/
def intsToJL : List Int → JList
  | [] => .nil
  | n :: t => .cons (.jint n) (intsToJL t)

/-- Partial inverse of `intsToJL`: reading a numeric array back. -/
def jlToInts : JList → Option (List Int)
  | .nil => some []
  | .cons (.jint n) t => (jlToInts t).map (fun l => n :: l)
  | .cons _ _ => none

/-- Modelled from the spec: `NumpyData.save` — a numeric array persisted
into one `.npy` artifact (§4.6). -/
def saveNumpy (xs : List Int) : List Tok := saveJSON (.jarr (intsToJL xs))

/-- Modelled from the spec: `NumpyData.load`. -/
def loadNumpy (toks : List Tok) : Option (List Int) :=
  match loadJSON toks with
  | some (.jarr l) => jlToInts l
  | _ => none

/-- Modelled from the spec: a tabular frame — named columns of numeric
values (§4.6 tabular frames). -/
def Frame := List (String × List Int)

/-- Embedding of a frame into a JSON mapping. -/
def frameToJObj : List (String × List Int) → JObj
  | [] => .onil
  | (c, vs) :: t => .ocons c (.jarr (intsToJL vs)) (frameToJObj t)

/-- Partial inverse of `frameToJObj`. -/
def jobjToFrame : JObj → Option (List (String × List Int))
  | .onil => some []
  | .ocons k (.jarr l) t =>
    match jlToInts l, jobjToFrame t with
    | some vs, some fr => some ((k, vs) :: fr)
    | _, _ => none
  | .ocons _ _ _ => none

/-- Modelled from the spec: `PandasData.save` — a frame persisted into one
`.pd` artifact (§4.6). -/
def savePandas (fr : Frame) : List Tok := saveJSON (.jobj (frameToJObj fr))

/-- Modelled from the spec: `PandasData.load`. -/
def loadPandas (toks : List Tok) : Option Frame :=
  match loadJSON toks with
  | some (.jobj o) => jobjToFrame o
  | _ => none

/-- Modelled from the spec: `GeneratedData.save` — a generated sequence of
JSON-like values persisted one after another as JSON lines (§4.6). -/
def saveGenerated : List J → List Tok
  | [] => []
  | v :: t => encodeJ v ++ saveGenerated t

/-- Reading back a stream of JSON-line records until the file ends. -/
def decodeStream : Nat → List Tok → Option (List J)
  | _, [] => some []
  | 0, _ :: _ => none
  | fuel + 1, t :: ts =>
    match decodeJ (2 * (t :: ts).length) (t :: ts) with
    | some (v, rest) => (decodeStream fuel rest).map (fun l => v :: l)
    | none => none

/-- Modelled from the spec: `GeneratedData.load`. -/
def loadGenerated (toks : List Tok) : Option (List J) :=
  decodeStream toks.length toks

/-- Modelled from the spec: the on-disk artifact of `FigureData` — the
pickled figure plus `.png` and `.svg` sidecars for sharing (§4.6; the
concrete renderers are external collaborators, modelled by the figure's
serialized payload). -/
structure FigArtifact where
  pickled : List Tok
  png : List Tok
  svg : List Tok

/-- Modelled from the spec: `FigureData.save`. -/
def saveFigure (f : J) : FigArtifact :=
  { pickled := saveJSON f, png := encodeJ f, svg := encodeJ f }

/-- Modelled from the spec: `FigureData.load` — the pickled payload is
read back; the sidecars are only for sharing. -/
def loadFigure (a : FigArtifact) : Option J := loadJSON a.pickled

/-- Demonstration parameter `x : int` of the spec scenario (§8 scenario 1). -/
def paramX : Param := { name := "x" }

/-- Demonstration parameter `verbose` declared with `ignore_persistence`
(§8 scenario 1). -/
def paramVerbose : Param :=
  { name := "verbose", default := some (.bool false), ignore_persistence := true }

/-- Demonstration task `TaskA` with parameters `x` and `verbose`. -/
def tsA : TaskSpec := { className := "TaskA", params := [paramX, paramVerbose] }

/-- Config `\x7bx: 5\x7d` of the spec scenario. -/
def cfgA1 : Config := [("x", .int 5)]

/-- Config `\x7bx: 5, verbose: true\x7d` of the spec scenario. -/
def cfgA2 : Config := [("x", .int 5), ("verbose", .bool true)]

/-- Demonstration parameter added later with a default of `0` and
`dont_persist_default_value` (docs part_004). -/
def paramMin : Param :=
  { name := "min_value", default := some (.int 0), dont_persist_default_value := true }

/-- Demonstration task owning `x` and the later-added `min_value`. -/
def tsB4 : TaskSpec := { className := "TaskB", params := [paramX, paramMin] }

/-- Config binding `min_value` to its declared default. -/
def cfgB1 : Config := [("x", .int 5), ("min_value", .int 0)]

/-- Config omitting `min_value` entirely. -/
def cfgB2 : Config := [("x", .int 5)]

/-- One config source listing the same bindings in one order. -/
def cfg51 : Config := [("x", .int 5), ("y", .int 1)]

/-- The same config source with the bindings in another order. -/
def cfg52 : Config := [("y", .int 1), ("x", .int 5)]

/-- Demonstration task declaring the reserved parameter name `uses`. -/
def tsRes : TaskSpec := { className := "Bad", params := [{ name := "uses" }] }

/-- Task specification A of the `A → B → C` scenario (§8 scenario 3). -/
def specA : TaskSpec := { className := "TaskA", group := "g", run := fun _ => 2 }

/-- Task specification B, consuming A. -/
def specB : TaskSpec :=
  { className := "TaskB", group := "g", inputRefs := [0],
    run := fun vs => vs.headD 0 + 10 }

/-- Task specification C, consuming B. -/
def specC : TaskSpec :=
  { className := "TaskC", group := "g", inputRefs := [1],
    run := fun vs => vs.headD 0 + 100 }

/-- The resolved chain `A → B → C` built from an empty config. -/
def chABC : List ETask := (buildChain "r" [] [specA, specB, specC]).getD []

/-- The artifact path of the k-th task of `chABC`. -/
def pathOf (k : Nat) : String := ((chABC.get? k).map ETask.path).getD ""

/-- Disk store holding finished artifacts of A, B and C from an earlier
evaluation. -/
def diskABC : List (String × Artifact) :=
  [(pathOf 0, { value := 1, finished := true }),
   (pathOf 1, { value := 11, finished := true }),
   (pathOf 2, { value := 111, finished := true })]

/-- State of `chABC` after `chain.force('A')` on a fresh chain. -/
def stForcedABC : EngineState := chainForce chABC [0] (initState diskABC)

/-- The resolved task A of `chABC`. -/
def etA : ETask := (chABC.get? 0).getD { run := fun _ => 0, inputRefs := [], path := "" }

/-- The resolved task C of `chABC`. -/
def etC : ETask := (chABC.get? 2).getD { run := fun _ => 0, inputRefs := [], path := "" }

/-- Demonstration task class without an explicit `Meta.name`. -/
def tsFiltered : TaskSpec := { className := "FilteredDataTask" }

/-- The encoding of a value never starts with a sequence-closing token. -/
theorem headIsArrClose_encodeJ (v : J) (rest : List Tok) :
    headIsArrClose (encodeJ v ++ rest) = false := by
  cases v <;> simp [encodeJ, headIsArrClose]

mutual
/-- Parsing the encoding of a value consumes exactly the encoding. -/
theorem decodeJ_encodeJ : ∀ (v : J) (fuel : Nat) (rest : List Tok),
    sizeJ v + 1 ≤ fuel + 1 → decodeJ fuel (encodeJ v ++ rest) = some (v, rest)
  | .null, fuel, rest, h => by
    cases fuel with
    | zero => simp [sizeJ] at h
    | succ f => simp [encodeJ, decodeJ]
  | .jbool b, fuel, rest, h => by
    cases fuel with
    | zero => simp [sizeJ] at h
    | succ f => simp [encodeJ, decodeJ]
  | .jint n, fuel, rest, h => by
    cases fuel with
    | zero => simp [sizeJ] at h
    | succ f => simp [encodeJ, decodeJ]
  | .jstr s, fuel, rest, h => by
    cases fuel with
    | zero => simp [sizeJ] at h
    | succ f => simp [encodeJ, decodeJ]
  | .jarr xs, fuel, rest, h => by
    cases fuel with
    | zero => simp [sizeJ] at h
    | succ f =>
      have hf : sizeJList xs ≤ f := by simp [sizeJ] at h; omega
      have hl := decodeJList_encodeJList xs f (.arrClose :: rest) rfl hf
      simp only [encodeJ, decodeJ, List.cons_append, List.append_assoc,
        List.singleton_append, List.nil_append] at hl ⊢
      simp [hl]
  | .jobj kvs, fuel, rest, h => by
    cases fuel with
    | zero => simp [sizeJ] at h
    | succ f =>
      have hf : sizeJObj kvs ≤ f := by simp [sizeJ] at h; omega
      have hl := decodeJObj_encodeJObj kvs f (.objClose :: rest) rfl hf
      simp only [encodeJ, decodeJ, List.cons_append, List.append_assoc,
        List.singleton_append, List.nil_append] at hl ⊢
      simp [hl]

/-- Parsing the encoding of a sequence body consumes exactly the body,
stopping at the closing token that follows it. -/
theorem decodeJList_encodeJList : ∀ (xs : JList) (fuel : Nat) (rest : List Tok),
    headIsArrClose rest = true → sizeJList xs ≤ fuel →
    decodeJList fuel (encodeJList xs ++ rest) = some (xs, rest)
  | .nil, fuel, rest, hr, h => by
    cases fuel with
    | zero => simp [sizeJList] at h
    | succ f => simp [encodeJList, decodeJList, hr]
  | .cons hd tl, fuel, rest, hr, h => by
    cases fuel with
    | zero => simp [sizeJList] at h
    | succ f =>
      have h1 : sizeJ hd + 1 ≤ f + 1 := by simp [sizeJList] at h; omega
      have h2 : sizeJList tl ≤ f := by simp [sizeJList] at h; omega
      have hhd := decodeJ_encodeJ hd f (encodeJList tl ++ rest) h1
      have htl := decodeJList_encodeJList tl f rest hr h2
      simp only [encodeJList, List.append_assoc, decodeJList,
        headIsArrClose_encodeJ, Bool.false_eq_true, if_false]
      simp [hhd, htl]

/-- Parsing the encoding of a mapping body consumes exactly the body,
stopping when no key token follows. -/
theorem decodeJObj_encodeJObj : ∀ (kvs : JObj) (fuel : Nat) (rest : List Tok),
    headIsKey rest = false → sizeJObj kvs ≤ fuel →
    decodeJObj fuel (encodeJObj kvs ++ rest) = some (kvs, rest)
  | .onil, fuel, rest, hr, h => by
    cases fuel with
    | zero => simp [sizeJObj] at h
    | succ f => simp [encodeJObj, decodeJObj, hr]
  | .ocons k v tl, fuel, rest, hr, h => by
    cases fuel with
    | zero => simp [sizeJObj] at h
    | succ f =>
      have h1 : sizeJ v + 1 ≤ f + 1 := by simp [sizeJObj] at h; omega
      have h2 : sizeJObj tl ≤ f := by simp [sizeJObj] at h; omega
      have hv := decodeJ_encodeJ v f (encodeJObj tl ++ rest) h1
      have htl := decodeJObj_encodeJObj tl f rest hr h2
      simp only [encodeJObj, List.cons_append, List.append_assoc, decodeJObj,
        headIsKey, if_true]
      simp [hv, htl]
end

mutual
/-- The parsing fuel of a value is bounded by its encoding length. -/
theorem sizeJ_le : ∀ v : J, sizeJ v + 1 ≤ 2 * (encodeJ v).length
  | .null => by simp [sizeJ, encodeJ]
  | .jbool b => by simp [sizeJ, encodeJ]
  | .jint n => by simp [sizeJ, encodeJ]
  | .jstr s => by simp [sizeJ, encodeJ]
  | .jarr xs => by
    have h := sizeJList_le xs
    simp only [sizeJ, encodeJ, List.length_cons, List.length_append,
      List.length_singleton]
    omega
  | .jobj kvs => by
    have h := sizeJObj_le kvs
    simp only [sizeJ, encodeJ, List.length_cons, List.length_append,
      List.length_singleton]
    omega

/-- The parsing fuel of a sequence body is bounded by its encoding length. -/
theorem sizeJList_le : ∀ xs : JList, sizeJList xs ≤ 2 * (encodeJList xs).length + 1
  | .nil => by simp [sizeJList, encodeJList]
  | .cons hd tl => by
    have h1 := sizeJ_le hd
    have h2 := sizeJList_le tl
    simp only [sizeJList, encodeJList, List.length_append]
    omega

/-- The parsing fuel of a mapping body is bounded by its encoding length. -/
theorem sizeJObj_le : ∀ kvs : JObj, sizeJObj kvs ≤ 2 * (encodeJObj kvs).length + 1
  | .onil => by simp [sizeJObj, encodeJObj]
  | .ocons k v tl => by
    have h1 := sizeJ_le v
    have h2 := sizeJObj_le tl
    simp only [sizeJObj, encodeJObj, List.length_cons, List.length_append]
    omega
end

/-- Round trip of the JSON handler. -/
theorem loadJSON_saveJSON (v : J) : loadJSON (saveJSON v) = some v := by
  have hs := sizeJ_le v
  have h := decodeJ_encodeJ v (2 * (encodeJ v).length) [] (by omega)
  rw [List.append_nil] at h
  simp [loadJSON, saveJSON, h]

/-- Reading a numeric array back from its JSON embedding. -/
theorem jlToInts_intsToJL (xs : List Int) : jlToInts (intsToJL xs) = some xs := by
  induction xs with
  | nil => simp [intsToJL, jlToInts]
  | cons n t ih => simp [intsToJL, jlToInts, ih]

/-- Reading a frame back from its JSON embedding. -/
theorem jobjToFrame_frameToJObj (fr : List (String × List Int)) :
    jobjToFrame (frameToJObj fr) = some fr := by
  induction fr with
  | nil => simp [frameToJObj, jobjToFrame]
  | cons c t ih => simp [frameToJObj, jobjToFrame, jlToInts_intsToJL, ih]

/-- The encoding of a value is never empty. -/
theorem encodeJ_cons (v : J) : ∃ c cs, encodeJ v = c :: cs := by
  cases v <;> simp [encodeJ]

/-- Reading back a stream of consecutively encoded values. -/
theorem decodeStream_saveGenerated : ∀ (xs : List J) (fuel : Nat),
    (saveGenerated xs).length ≤ fuel →
    decodeStream fuel (saveGenerated xs) = some xs := by
  intro xs
  induction xs with
  | nil => intro fuel h; cases fuel <;> simp [saveGenerated, decodeStream]
  | cons v t ih =>
    intro fuel h
    obtain ⟨c, cs, hv⟩ := encodeJ_cons v
    have hsave : saveGenerated (v :: t) = c :: (cs ++ saveGenerated t) := by
      simp [saveGenerated, hv]
    rw [hsave] at h ⊢
    cases fuel with
    | zero => simp at h
    | succ f =>
      have hlen : (encodeJ v).length = cs.length + 1 := by simp [hv]
      have hd : decodeJ (2 * (c :: (cs ++ saveGenerated t)).length)
          (c :: (cs ++ saveGenerated t)) = some (v, saveGenerated t) := by
        have h1 : c :: (cs ++ saveGenerated t) = encodeJ v ++ saveGenerated t := by
          simp [hv]
        rw [h1]
        apply decodeJ_encodeJ
        have h2 := sizeJ_le v
        simp only [List.length_cons, List.length_append]
        omega
      simp only [decodeStream, hd]
      have ht : decodeStream f (saveGenerated t) = some t := by
        apply ih
        simp only [List.length_cons, List.length_append] at h
        omega
      simp [ht]

/-- Binding depends only on the observable lookup of the config. -/
theorem boundValue_congr (c1 c2 : Config) (p : Param)
    (h : configLookup c1 p.name_in_config = configLookup c2 p.name_in_config) :
    boundValue c1 p = boundValue c2 p := by
  simp [boundValue, h]

/-- The persistence-relevant entries depend only on the bound values of the
persistence-relevant parameters. -/
theorem persistedEntries_congr (c1 c2 : Config) :
    ∀ ps : List Param,
    (∀ p ∈ ps, p.ignore_persistence = false → boundValue c1 p = boundValue c2 p) →
    persistedEntries c1 ps = persistedEntries c2 ps
  | [], _ => rfl
  | p :: rest, h => by
    have hrest := persistedEntries_congr c1 c2 rest
      (fun q hq hi => h q (List.mem_cons_of_mem _ hq) hi)
    by_cases hig : p.ignore_persistence
    · simp [persistedEntries, hig, hrest]
    · have hb := h p (List.mem_cons_self _ _) (by simpa using hig)
      simp [persistedEntries, hig, hb, hrest]

/-- One fingerprint step depends only on the observable lookups of the
config of the persistence-relevant parameters. -/
theorem fpStep_congr (c1 c2 : Config) (acc : List (Option String)) (ts : TaskSpec)
    (h : ∀ p ∈ ts.params,
      configLookup c1 p.name_in_config = configLookup c2 p.name_in_config) :
    fpStep c1 acc ts = fpStep c2 acc ts := by
  have hpe := persistedEntries_congr c1 c2 ts.params
    (fun p hp _ => boundValue_congr c1 c2 p (h p hp))
  simp [fpStep, taskFingerprint, hpe]

/-- The whole fingerprint fold depends only on the observable lookups of
the config. -/
theorem buildFpsAux_congr (c1 c2 : Config) :
    ∀ (tasks : List TaskSpec) (acc : List (Option String)),
    (∀ ts ∈ tasks, ∀ p ∈ ts.params,
      configLookup c1 p.name_in_config = configLookup c2 p.name_in_config) →
    buildFpsAux c1 acc tasks = buildFpsAux c2 acc tasks
  | [], _, _ => rfl
  | ts :: rest, acc, h => by
    have hstep : fpStep c1 acc ts = fpStep c2 acc ts :=
      fpStep_congr c1 c2 acc ts (h ts (List.mem_cons_self _ _))
    rw [buildFpsAux, buildFpsAux, hstep]
    exact buildFpsAux_congr c1 c2 rest (acc ++ [fpStep c2 acc ts])
      (fun t ht p hp => h t (List.mem_cons_of_mem _ ht) p hp)

/-- Claim C1: for every TaskInstance the fingerprint is a pure function of
the class identity, the persistence-relevant parameter values and the input
task fingerprints; in particular two chains whose configs differ only in
parameters declared with `ignore_persistence` produce the same fingerprint
for the affected task. -/
theorem fingerprint_depends_only_on_relevant_inputs
    (ts1 ts2 : TaskSpec) (c1 c2 : Config) (f1 f2 : List String) :
    (ts1.className = ts2.className →
      persistedEntries c1 ts1.params = persistedEntries c2 ts2.params →
      f1 = f2 →
      taskFingerprint ts1 c1 f1 = taskFingerprint ts2 c2 f2)
    ∧ ((∀ p ∈ ts1.params, p.ignore_persistence = false →
          configLookup c1 p.name_in_config = configLookup c2 p.name_in_config) →
        taskFingerprint ts1 c1 f1 = taskFingerprint ts1 c2 f1) := by
  constructor
  · intro h1 h2 h3
    simp [taskFingerprint, h1, h2, h3]
  · intro h
    have hpe := persistedEntries_congr c1 c2 ts1.params
      (fun p hp hi => boundValue_congr c1 c2 p (h p hp hi))
    simp [taskFingerprint, hpe]

/-- Witness of C1 at the spec scenario: config `\x7bx: 5\x7d` and config
`\x7bx: 5, verbose: true\x7d` with `verbose` ignored give TaskA the same
fingerprint. -/
theorem fingerprint_depends_only_on_relevant_inputs_witness :
    taskFingerprint tsA cfgA1 [] = taskFingerprint tsA cfgA2 [] :=
  (fingerprint_depends_only_on_relevant_inputs tsA tsA cfgA1 cfgA2 [] []).2
    (by decide)

/-- Claim C4: binding a `dont_persist_default_value` parameter to its
declared default produces the same fingerprint as omitting the binding, and
such a parameter bound to its default contributes no persistence entry at
all. -/
theorem default_valued_param_not_persisted
    (ts : TaskSpec) (c1 c2 : Config) (inFps : List String)
    (p : Param) (cfg : Config) (rest : List Param) :
    ((∀ q ∈ ts.params,
        configLookup c1 q.name_in_config = configLookup c2 q.name_in_config ∨
        (q.dont_persist_default_value = true ∧ q.default.isSome = true ∧
          ((configLookup c1 q.name_in_config = q.default ∧
              configLookup c2 q.name_in_config = none) ∨
           (configLookup c2 q.name_in_config = q.default ∧
              configLookup c1 q.name_in_config = none)))) →
      taskFingerprint ts c1 inFps = taskFingerprint ts c2 inFps)
    ∧ (p.dont_persist_default_value = true → p.default.isSome = true →
        boundValue cfg p = p.default →
        persistedEntries cfg (p :: rest) = persistedEntries cfg rest) := by
  constructor
  · intro h
    have hb : ∀ q ∈ ts.params, boundValue c1 q = boundValue c2 q := by
      intro q hq
      rcases h q hq with heq | ⟨hflag, hsome, hcase⟩
      · exact boundValue_congr c1 c2 q heq
      · obtain ⟨d, hd⟩ := Option.isSome_iff_exists.mp hsome
        rcases hcase with ⟨h1, h2⟩ | ⟨h1, h2⟩
        · rw [hd] at h1
          simp [boundValue, h1, h2, hd]
        · rw [hd] at h1
          simp [boundValue, h1, h2, hd]
    have hpe := persistedEntries_congr c1 c2 ts.params (fun q hq _ => hb q hq)
    simp [taskFingerprint, hpe]
  · intro hflag hsome hb
    obtain ⟨d, hd⟩ := Option.isSome_iff_exists.mp hsome
    rw [hd] at hb
    by_cases hig : p.ignore_persistence
    · simp [persistedEntries, hig]
    · simp [persistedEntries, hig, hb, hflag, hd]

/-- Witness of C4: `min_value` has default `0` and
`dont_persist_default_value`; binding it to `0` and omitting it give the
owning task the same fingerprint. -/
theorem default_valued_param_not_persisted_witness :
    taskFingerprint tsB4 cfgB1 [] = taskFingerprint tsB4 cfgB2 [] :=
  (default_valued_param_not_persisted tsB4 cfgB1 cfgB2 [] paramMin cfgB1 []).1
    (by decide)

/-- Claim C5: chain construction is deterministic — two chains built from
the same root config (the same observable parameter bindings) assign every
task instance the same fingerprint. -/
theorem chain_construction_deterministic (tasks : List TaskSpec) (c1 c2 : Config) :
    (∀ ts ∈ tasks, ∀ p ∈ ts.params,
      configLookup c1 p.name_in_config = configLookup c2 p.name_in_config) →
    buildFps c1 tasks = buildFps c2 tasks := by
  intro h
  exact buildFpsAux_congr c1 c2 tasks [] h

/-- Witness of C5: the same bindings written in two different orders build
identical fingerprints for the whole chain. -/
theorem chain_construction_deterministic_witness :
    buildFps cfg51 [tsA] = buildFps cfg52 [tsA] :=
  chain_construction_deterministic [tsA] cfg51 cfg52 (by decide)

/-- Claim C6: the reserved set is exactly \x7btasks, uses, excluded_tasks,
configs, for_namespaces, human_readable_data_name\x7d, and declaring a task
parameter with a reserved name makes chain construction fail. -/
theorem reserved_param_name_fails_chain_construction
    (root : String) (cfg : Config) (tasks : List TaskSpec) :
    reservedNames = ["tasks", "uses", "excluded_tasks", "configs",
      "for_namespaces", "human_readable_data_name"]
    ∧ ((∃ ts ∈ tasks, ∃ p ∈ ts.params, p.name ∈ reservedNames) →
        buildChain root cfg tasks = none) := by
  refine ⟨rfl, ?_⟩
  rintro ⟨ts, hts, p, hp, hname⟩
  have hres : hasReservedParam tasks = true := by
    simp only [hasReservedParam, List.any_eq_true]
    exact ⟨ts, hts, p, hp, by simpa using hname⟩
  simp [buildChain, hres]

/-- Witness of C6: a task declaring a parameter named `uses` cannot be part
of a constructed chain. -/
theorem reserved_param_name_fails_chain_construction_witness :
    buildChain "r" [] [tsRes] = none :=
  (reserved_param_name_fails_chain_construction "r" [] [tsRes]).2 (by decide)

/-- Claim C7: a persisted result lives at
`<root>/<group-path>/<task-name>/<fingerprint>.<ext>` with the extension
determined by the declared return type, and the run-info and log files are
siblings with suffixes `.run_info.yaml` and `.log` in place of the data
extension. -/
theorem artifact_path_layout (root group name fp ext : String) :
    (group ≠ "" →
      dataPath root group name fp ext =
        root ++ "/" ++ groupPath group ++ "/" ++ name ++ "/" ++ fp ++ "." ++ ext
      ∧ runInfoPath root group name fp =
        root ++ "/" ++ groupPath group ++ "/" ++ name ++ "/" ++ fp ++ ".run_info.yaml"
      ∧ logPath root group name fp =
        root ++ "/" ++ groupPath group ++ "/" ++ name ++ "/" ++ fp ++ ".log")
    ∧ extOf .jsonLike = "json" ∧ extOf .numpyArray = "npy"
    ∧ extOf .pandasFrame = "pd" ∧ extOf .generated = "jsonl"
    ∧ groupPath "group:subgroup" = "group/subgroup"
    ∧ (∀ (ts : TaskSpec) (fp2 : String),
        (mkETask root ts fp2).path =
          dataPath root ts.group (taskName ts) fp2 (extOf ts.returnType)) := by
  refine ⟨?_, rfl, rfl, rfl, rfl, by decide, fun ts fp2 => rfl⟩
  intro h
  refine ⟨?_, ?_, ?_⟩ <;> simp [dataPath, runInfoPath, logPath, artifactBase, h]

/-- Witness of C7 at a two-level group. -/
theorem artifact_path_layout_witness :
    dataPath "root" "g:h" "t" "f" "json" =
      "root" ++ "/" ++ groupPath "g:h" ++ "/" ++ "t" ++ "/" ++ "f" ++ "." ++ "json"
    ∧ runInfoPath "root" "g:h" "t" "f" =
      "root" ++ "/" ++ groupPath "g:h" ++ "/" ++ "t" ++ "/" ++ "f" ++ ".run_info.yaml"
    ∧ logPath "root" "g:h" "t" "f" =
      "root" ++ "/" ++ groupPath "g:h" ++ "/" ++ "t" ++ "/" ++ "f" ++ ".log" :=
  (artifact_path_layout "root" "g:h" "t" "f" "json").1 (by decide)

/-- Claim C8: absent an explicit name attribute the task name is the class
name with a trailing `Task` suffix stripped and camel case converted to
snake case; `DataTask`, `FilteredDataTask`, `FilteredData` and
`LongNameOfTheTask` derive `data`, `filtered_data`, `filtered_data` and
`long_name_of_the`. -/
theorem derived_task_name (ts : TaskSpec) :
    (ts.name = none → taskName ts = camelToSnake (stripTaskSuffix ts.className))
    ∧ deriveName "DataTask" = "data"
    ∧ deriveName "FilteredDataTask" = "filtered_data"
    ∧ deriveName "FilteredData" = "filtered_data"
    ∧ deriveName "LongNameOfTheTask" = "long_name_of_the" := by
  refine ⟨?_, by decide, by decide, by decide, by decide⟩
  intro h
  simp [taskName, h, deriveName]

/-- Witness of C8: the demonstration class `FilteredDataTask` without an
explicit name derives `filtered_data`. -/
theorem derived_task_name_witness :
    taskName tsFiltered = camelToSnake (stripTaskSuffix tsFiltered.className) :=
  (derived_task_name tsFiltered).1 rfl

/-- Claim C9: every data-handler variant restores the value it saved —
JSON-compatible values, numeric arrays, tabular frames, generated sequences
and figures all satisfy load(save(v)) = v. -/
theorem data_handler_load_save_round_trip
    (v : J) (xs : List Int) (fr : Frame) (g : List J) (fg : J) :
    loadJSON (saveJSON v) = some v
    ∧ loadNumpy (saveNumpy xs) = some xs
    ∧ loadPandas (savePandas fr) = some fr
    ∧ loadGenerated (saveGenerated g) = some g
    ∧ loadFigure (saveFigure fg) = some fg := by
  refine ⟨loadJSON_saveJSON v, ?_, ?_, ?_, ?_⟩
  · simp [loadNumpy, saveNumpy, loadJSON_saveJSON, jlToInts_intsToJL]
  · simp [loadPandas, savePandas, loadJSON_saveJSON, jobjToFrame_frameToJObj]
  · exact decodeStream_saveGenerated g _ le_rfl
  · simp [loadFigure, saveFigure, loadJSON_saveJSON]

/-- A head insertion into the memory cache is immediately visible. -/
theorem lookupMem_cons_self (m : List (Nat × Nat)) (i v : Nat) :
    lookupMem ((i, v) :: m) i = some v := by
  simp [lookupMem]

/-- Every successful evaluation leaves the value in the in-memory cache,
and the task exists in the chain. -/
theorem evalTask_success_caches (ch : List ETask) (fuel : Nat)
    (st st' : EngineState) (i v : Nat)
    (h : evalTask ch fuel st i = (st', some v)) :
    lookupMem st'.memory i = some v ∧ ∃ t, ch.get? i = some t := by
  cases fuel with
  | zero => simp [evalTask] at h
  | succ f =>
    simp only [evalTask] at h
    split at h
    · simp at h
    · rename_i t hget
      split at h
      · rename_i w hmem
        obtain ⟨h1, h2⟩ := Prod.mk.injEq .. ▸ h
        obtain rfl := Option.some.injEq .. ▸ h2
        subst h1
        exact ⟨hmem, t, hget⟩
      · split at h
        · rename_i w hav
          obtain ⟨h1, h2⟩ := Prod.mk.injEq .. ▸ h
          obtain rfl := Option.some.injEq .. ▸ h2
          subst h1
          exact ⟨lookupMem_cons_self _ _ _, t, hget⟩
        · split at h
          · simp at h
          · rename_i st2 vs hlist
            obtain ⟨h1, h2⟩ := Prod.mk.injEq .. ▸ h
            obtain rfl := Option.some.injEq .. ▸ h2
            subst h1
            exact ⟨lookupMem_cons_self _ _ _, t, hget⟩

/-- Claim C2: a second request of a task value returns the already cached
value and leaves the state untouched, and when a finished persisted
artifact exists and no force mark is set, the value is loaded from disk and
the run-method is never invoked (the run trace is unchanged). -/
theorem value_cached_and_loads (ch : List ETask) (fuel fuel2 : Nat)
    (st st' : EngineState) (i v : Nat) (t : ETask) (a : Artifact) :
    (evalTask ch fuel st i = (st', some v) →
      evalTask ch (fuel2 + 1) st' i = (st', some v))
    ∧ (ch.get? i = some t → lookupMem st.memory i = none →
        st.forced.contains i = false → lookupDisk st.disk t.path = some a →
        a.finished = true →
        evalTask ch (fuel2 + 1) st i =
          ({ st with memory := (i, a.value) :: st.memory }, some a.value)
        ∧ ({ st with memory := (i, a.value) :: st.memory} : EngineState).runTrace
            = st.runTrace) := by
  constructor
  · intro h
    obtain ⟨hmem, t0, hget⟩ := evalTask_success_caches ch fuel st st' i v h
    have hget2 : ch[i]? = some t0 := by simpa using hget
    simp [evalTask, hget2, hmem]
  · intro hget hmem hforced hdisk hfin
    refine ⟨?_, rfl⟩
    have hget2 : ch[i]? = some t := by simpa using hget
    have hnot : i ∉ st.forced := by
      intro hin
      have hc : st.forced.contains i = true := List.elem_eq_true_of_mem hin
      rw [hc] at hforced
      exact absurd hforced (by simp)
    simp [evalTask, hget2, hmem, availArtifact, hnot, hdisk, hfin]

/-- Witness of C2: in the `A → B → C` chain with all artifacts persisted
and no force marks, requesting C loads the stored value 111 without running
anything, and a repeated request returns the cached value unchanged. -/
theorem value_cached_and_loads_witness :
    evalTask chABC 5 (evalTask chABC 9 (initState diskABC) 2).1 2
      = ((evalTask chABC 9 (initState diskABC) 2).1, some 111)
    ∧ evalTask chABC 5 (initState diskABC) 2
      = ({ initState diskABC with memory := [(2, 111)] }, some 111) := by
  constructor
  · exact (value_cached_and_loads chABC 9 4 (initState diskABC)
      (evalTask chABC 9 (initState diskABC) 2).1 2 111 etC
      { value := 111, finished := true }).1 (by decide)
  · exact ((value_cached_and_loads chABC 9 4 (initState diskABC)
      (initState diskABC) 2 111 etC
      { value := 111, finished := true }).2
      (by rfl) (by decide) (by decide) (by decide) (by decide)).1

/-- Claim C3: in the chain `A → B → C`, after `chain.force('A')` the forced
marks cover A, B and C; requesting C re-invokes the run-methods of A, B and
C in that order; all previously persisted artifact paths are still present
on disk (nothing is deleted, same-fingerprint artifacts are overwritten in
place); and a freshly reconstructed chain carries no forced mark. -/
theorem forced_chain_recomputes_in_order :
    stForcedABC.forced = [0, 1, 2]
    ∧ (evalTask chABC 9 stForcedABC 2).2 = some 112
    ∧ (evalTask chABC 9 stForcedABC 2).1.runTrace = [0, 1, 2]
    ∧ (lookupDisk (evalTask chABC 9 stForcedABC 2).1.disk (pathOf 0)).isSome = true
    ∧ (lookupDisk (evalTask chABC 9 stForcedABC 2).1.disk (pathOf 1)).isSome = true
    ∧ (lookupDisk (evalTask chABC 9 stForcedABC 2).1.disk (pathOf 2)).isSome = true
    ∧ (evalTask chABC 9 stForcedABC 2).1.disk.length = diskABC.length
    ∧ (initState (evalTask chABC 9 stForcedABC 2).1.disk).forced = [] := by
  decide

/-- Claim C10: `Task.force` returns the task itself (so that
`chain.my_task.force().value` works in one statement), marks it forced, and
a subsequent value request on the returned task re-invokes the run-method
even though state and disk are otherwise untouched. -/
theorem task_force_returns_itself (st : EngineState) (i : Nat) (ch : List ETask)
    (t : ETask) (fuel : Nat) :
    (forceTask st i).2 = i
    ∧ (forceTask st i).1.forced.contains i = true
    ∧ (ch.get? i = some t → t.inputRefs = [] → lookupMem st.memory i = none →
        evalTask ch (fuel + 1) (forceTask st i).1 (forceTask st i).2 =
          ({ memory := (i, t.run []) :: st.memory,
             disk := setDisk st.disk t.path { value := t.run [], finished := true },
             forced := i :: st.forced,
             runTrace := st.runTrace ++ [i] }, some (t.run []))) := by
  refine ⟨rfl, by simp [forceTask], ?_⟩
  intro hget hrefs hmem
  have hget2 : ch[i]? = some t := by simpa using hget
  simp [forceTask, evalTask, hget2, hmem, availArtifact, hrefs, evalList]

/-- Witness of C10: forcing task A of the demonstration chain and
evaluating the returned task runs A again despite its finished artifact. -/
theorem task_force_returns_itself_witness :
    evalTask chABC 2 (forceTask (initState diskABC) 0).1
        (forceTask (initState diskABC) 0).2 =
      ({ memory := [(0, 2)],
         disk := setDisk diskABC etA.path { value := 2, finished := true },
         forced := [0],
         runTrace := [0] }, some 2) :=
  (task_force_returns_itself (initState diskABC) 0 chABC etA 1).2.2
    (by rfl) (by rfl) (by rfl)

end TaskChain




